import Mathlib

set_option maxRecDepth 100000

/-!
Verification development for the noderowallet JSON-RPC client
(src/index.ts).  The client's core is:

  * stringifyInts : a regex prepass over the raw response text,
      json.replaceAll(/(?<=".+?": )(\d+)(?=,?[^0-9]?$)/gm, '"$1n"')
  * JSON.parse with a reviver promoting any string matching /(\d+)n/
      to a BigInt
  * class MoneroRpcError : structured error construction
  * request : status check, decode, error/result dispatch

Everything below is a shallow embedding of that code: JS values are the
inductive JsValue, machine doubles are modelled by exact rounding of
integer literals to the nearest IEEE-754 binary64 value (plain Nat/Int
arithmetic), and the regex is modelled as an executable scanner whose
line/lookaround semantics were derived from the ECMAScript regex
semantics for this concrete pattern.
-/

/-- JS values as they occur in this client: everything `JSON.parse` with
the BigInt reviver can produce, plus `bigint` for revived values.
`num` carries the exact value of an integer-lexical JSON literal after
rounding to the nearest binary64 float (what `JSON.parse` yields for
such a literal); `numOther` keeps the lexeme of a literal with a
fraction or exponent part, whose float value no verified claim
inspects. -/
inductive JsValue where
  | null : JsValue
  | bool (b : Bool) : JsValue
  | num (n : Int) : JsValue
  | numOther (lexeme : String) : JsValue
  | bigint (n : Int) : JsValue
  | str (s : String) : JsValue
  | arr (elems : List JsValue) : JsValue
  | obj (fields : List (String × JsValue)) : JsValue

/-! ## The stringifyInts regex

JS source: `json.replaceAll(/(?<=".+?": )(\d+)(?=,?[^0-9]?$)/gm, '"$1n"')`.

With the m flag, `$` matches before a newline or at the end of input,
and `.` does not match a newline, so both lookarounds are confined to
the current line.  The lookbehind `(?<=".+?": )` holds at a position
iff the line text before it ends with the three characters quote,
colon, space and some earlier quote on the line leaves at least one
character between it and that closing quote.  The lookahead
`(?=,?[^0-9]?$)` holds iff the rest of the line is empty, one
non-digit character, or a comma followed by one non-digit character.
`(\d+)` is greedy and a shorter prefix of a digit run never helps
(the next character would be a digit, which no branch of the lookahead
accepts), so a run matches iff the lookahead holds after the full run;
a match can only start at the beginning of a digit run because the
lookbehind requires a space immediately before the match. -/

/-- Lookbehind `(?<=".+?": )`: `pre` is the reversed current-line text
before the match position. -/
def lookbehindOk (pre : List Char) : Bool :=
  match pre with
  | ' ' :: ':' :: '"' :: rest => (rest.drop 1).contains '"'
  | _ => false

/-- Lookahead `(?=,?[^0-9]?$)` under the m flag, applied to the text
after the digit run; only the current line (up to the next newline)
matters. -/
def lookaheadOk (rest : List Char) : Bool :=
  match rest.takeWhile (fun c => c ≠ '\n') with
  | [] => true
  | [c] => !c.isDigit
  | [',', c] => !c.isDigit
  | _ => false

/-- One pass of `replaceAll` for this pattern: scan left to right,
tracking the reversed original text of the current line in `pre`
(later lookbehinds see the original string, as `replaceAll` finds all
matches before substituting).  On a match the digits are wrapped as
`"<digits>n"` and scanning resumes after the run.  `fuel` only bounds
the recursion; the initial call supplies more fuel than characters so
it never runs out. -/
def scanInts : Nat → List Char → List Char → List Char
  | 0, _, rest => rest
  | _ + 1, _, [] => []
  | fuel + 1, pre, c :: cs =>
    if c = '\n' then
      '\n' :: scanInts fuel [] cs
    else if c.isDigit then
      let run := (c :: cs).takeWhile Char.isDigit
      let rest := (c :: cs).dropWhile Char.isDigit
      if lookbehindOk pre && lookaheadOk rest then
        '"' :: (run ++ 'n' :: '"' :: scanInts fuel (run.reverse ++ pre) rest)
      else
        run ++ scanInts fuel (run.reverse ++ pre) rest
    else
      c :: scanInts fuel (c :: pre) cs

/-- `const stringifyInts = (json) => json.replaceAll(/(?<=".+?": )(\d+)(?=,?[^0-9]?$)/gm, '"$1n"')` -/
def stringifyInts (json : String) : String :=
  String.mk (scanInts (json.data.length + 1) [] json.data)

/-! ## JSON.parse

The parser below follows the JSON grammar that `JSON.parse` accepts:
whitespace is space, tab, newline, carriage return; strings use the
standard escapes; numbers are `-? int frac? exp?` with no leading
zeros.  An integer-lexical literal becomes `JsValue.num` carrying the
exact nearest binary64 value (JS parses every number to a double); a
literal with a fraction or exponent becomes `JsValue.numOther`. -/

/-- Base-2 logarithm with explicit fuel (so that it reduces inside the
kernel); `log2Fuel n n` computes `Nat.log2 n`. -/
def log2Fuel : Nat → Nat → Nat
  | 0, _ => 0
  | fuel + 1, n => if 2 ≤ n then log2Fuel fuel (n / 2) + 1 else 0

/-- Round a natural number to the nearest IEEE-754 binary64 value
(round half to even, 53-bit significand).  Wallet magnitudes are far
below the overflow threshold, so the finite range is not modelled. -/
def roundNatToDouble (n : Nat) : Nat :=
  if n < 2 ^ 53 then n
  else
    let e := log2Fuel n n - 52
    let q := n / 2 ^ e
    let r := n % 2 ^ e
    let half := 2 ^ (e - 1)
    if half < r ∨ (r = half ∧ q % 2 = 1) then (q + 1) * 2 ^ e else q * 2 ^ e

/-- Round an integer to the nearest binary64 value. -/
def roundIntToDouble : Int → Int
  | .ofNat n => .ofNat (roundNatToDouble n)
  | .negSucc m => -(Int.ofNat (roundNatToDouble (m + 1)))

/-- Numeric value of a (most-significant-first) digit run. -/
def digitsVal (ds : List Char) : Nat :=
  ds.foldl (fun a c => a * 10 + (c.toNat - 48)) 0

/-- JSON whitespace. -/
def skipWs (s : List Char) : List Char :=
  s.dropWhile (fun c => c = ' ' ∨ c = '\t' ∨ c = '\n' ∨ c = '\r')

/-- Hex digit value, for the \uXXXX escape. -/
def hexVal (c : Char) : Option Nat :=
  if '0' ≤ c ∧ c ≤ '9' then some (c.toNat - 48)
  else if 'a' ≤ c ∧ c ≤ 'f' then some (c.toNat - 87)
  else if 'A' ≤ c ∧ c ≤ 'F' then some (c.toNat - 55)
  else none

/-- Prepend a character to the string part of a string-parser result. -/
def consStr (c : Char) : Option (List Char × List Char) → Option (List Char × List Char)
  | some (s, r) => some (c :: s, r)
  | none => none

/-- Parse the body of a JSON string (after the opening quote) up to and
including the closing quote, decoding escapes; raw control characters
are rejected as in `JSON.parse`.  A \uXXXX escape denotes the
corresponding code unit (lone surrogates, which `Char` cannot carry,
do not occur in any input considered here). -/
def parseStrAux : List Char → Option (List Char × List Char)
  | [] => none
  | '"' :: rest => some ([], rest)
  | '\\' :: '"' :: rest => consStr '"' (parseStrAux rest)
  | '\\' :: '\\' :: rest => consStr '\\' (parseStrAux rest)
  | '\\' :: '/' :: rest => consStr '/' (parseStrAux rest)
  | '\\' :: 'b' :: rest => consStr '\x08' (parseStrAux rest)
  | '\\' :: 'f' :: rest => consStr '\x0c' (parseStrAux rest)
  | '\\' :: 'n' :: rest => consStr '\n' (parseStrAux rest)
  | '\\' :: 'r' :: rest => consStr '\r' (parseStrAux rest)
  | '\\' :: 't' :: rest => consStr '\t' (parseStrAux rest)
  | '\\' :: 'u' :: h1 :: h2 :: h3 :: h4 :: rest =>
    (match hexVal h1, hexVal h2, hexVal h3, hexVal h4 with
     | some a, some b, some c, some d =>
       consStr (Char.ofNat (((a * 16 + b) * 16 + c) * 16 + d)) (parseStrAux rest)
     | _, _, _, _ => none)
  | '\\' :: _ => none
  | c :: rest => if c.toNat < 32 then none else consStr c (parseStrAux rest)

/-- Optional fraction part: `.` followed by one or more digits. -/
def parseFrac : List Char → Option (Bool × List Char)
  | '.' :: r =>
    let fd := r.takeWhile Char.isDigit
    if fd.isEmpty then none else some (true, r.dropWhile Char.isDigit)
  | s => some (false, s)

/-- Optional exponent part: `e`/`E`, optional sign, one or more digits. -/
def parseExpo : List Char → Option (Bool × List Char)
  | [] => some (false, [])
  | c :: rest =>
    if c = 'e' ∨ c = 'E' then
      let body := match rest with
        | s :: r2 => if s = '+' ∨ s = '-' then r2 else rest
        | [] => []
      let ed := body.takeWhile Char.isDigit
      if ed.isEmpty then none else some (true, body.dropWhile Char.isDigit)
    else some (false, c :: rest)

/-- Parse a JSON number literal.  Integer-lexical literals round to the
nearest double; fraction/exponent literals keep their lexeme. -/
def parseNum (input : List Char) : Option (JsValue × List Char) :=
  let (neg, s1) := match input with
    | '-' :: rest => (true, rest)
    | _ => (false, input)
  let intDigits := s1.takeWhile Char.isDigit
  let s2 := s1.dropWhile Char.isDigit
  if intDigits.isEmpty then none
  else if 1 < intDigits.length ∧ intDigits.headD 'x' = '0' then none
  else
    match parseFrac s2 with
    | none => none
    | some (hasFrac, s3) =>
      match parseExpo s3 with
      | none => none
      | some (hasExp, s4) =>
        if hasFrac ∨ hasExp then
          some (.numOther (String.mk (input.take (input.length - s4.length))), s4)
        else
          let v : Int := Int.ofNat (digitsVal intDigits)
          some (.num (roundIntToDouble (if neg then -v else v)), s4)

mutual

/-- Parse one JSON value, leading whitespace allowed. -/
def parseVal : Nat → List Char → Option (JsValue × List Char)
  | 0, _ => none
  | fuel + 1, input =>
    match skipWs input with
    | 'n' :: 'u' :: 'l' :: 'l' :: rest => some (.null, rest)
    | 't' :: 'r' :: 'u' :: 'e' :: rest => some (.bool true, rest)
    | 'f' :: 'a' :: 'l' :: 's' :: 'e' :: rest => some (.bool false, rest)
    | '"' :: rest =>
      (match parseStrAux rest with
       | some (cs, r) => some (.str (String.mk cs), r)
       | none => none)
    | '[' :: rest =>
      (match skipWs rest with
       | ']' :: r => some (.arr [], r)
       | _ => parseElems fuel rest [])
    | '\x7b' :: rest =>
      (match skipWs rest with
       | '\x7d' :: r => some (.obj [], r)
       | _ => parseMembers fuel rest [])
    | s => parseNum s

/-- Parse the elements of a non-empty JSON array (after `[`). -/
def parseElems : Nat → List Char → List JsValue → Option (JsValue × List Char)
  | 0, _, _ => none
  | fuel + 1, input, acc =>
    match parseVal fuel input with
    | none => none
    | some (v, r) =>
      match skipWs r with
      | ',' :: r2 => parseElems fuel r2 (acc ++ [v])
      | ']' :: r2 => some (.arr (acc ++ [v]), r2)
      | _ => none

/-- Parse the members of a non-empty JSON object (after the brace). -/
def parseMembers : Nat → List Char → List (String × JsValue) →
    Option (JsValue × List Char)
  | 0, _, _ => none
  | fuel + 1, input, acc =>
    match skipWs input with
    | '"' :: r =>
      (match parseStrAux r with
       | none => none
       | some (k, r2) =>
         match skipWs r2 with
         | ':' :: r3 =>
           (match parseVal fuel r3 with
            | none => none
            | some (v, r4) =>
              match skipWs r4 with
              | ',' :: r5 => parseMembers fuel r5 (acc ++ [(String.mk k, v)])
              | '\x7d' :: r5 => some (.obj (acc ++ [(String.mk k, v)]), r5)
              | _ => none)
         | _ => none)
    | _ => none

end

/-- The whole-text part of `JSON.parse`: one value, then only trailing
whitespace.  The fuel is larger than the character count, and every
recursive step of the fueled parsers consumes at least one character,
so the fuel never runs out on any input this development evaluates. -/
def jsonParse (s : String) : Option JsValue :=
  match parseVal (s.data.length + 1) s.data with
  | some (v, rest) => if (skipWs rest).isEmpty then some v else none
  | none => none

/-! ## The BigInt reviver

JS source:
  (k, v) => \x7b
    if (typeof v === 'string') \x7b
      const m = v.match(/(\d+)n/)
      if (m?.[1] != null) return BigInt(m[1])
    \x7d
    return v
  \x7d
The pattern /(\d+)n/ is unanchored: it matches at the leftmost maximal
digit run immediately followed by the letter n (a shorter prefix of a
run never matches, because the character after it is a digit, not n),
and the capture is that run. -/

/-- Leftmost maximal digit run immediately followed by 'n'; `acc`
carries the value of the digit run currently being read. -/
def findMarkerAux : Option Nat → List Char → Option Nat
  | _, [] => none
  | acc, c :: cs =>
    if c.isDigit then findMarkerAux (some ((acc.getD 0) * 10 + (c.toNat - 48))) cs
    else if c = 'n' then
      match acc with
      | some n => some n
      | none => findMarkerAux none cs
    else findMarkerAux none cs

/-- `v.match(/(\d+)n/)` followed by `BigInt(m[1])` on a string value. -/
def bigIntOfMarked (s : String) : Option Nat :=
  findMarkerAux none s.data

mutual

/-- Bottom-up application of the reviver, as `JSON.parse` does: every
string value matching /(\d+)n/ becomes a BigInt; everything else is
returned unchanged. -/
def applyReviver : JsValue → JsValue
  | .str s =>
    (match bigIntOfMarked s with
     | some n => .bigint (Int.ofNat n)
     | none => .str s)
  | .arr xs => .arr (applyReviverList xs)
  | .obj fs => .obj (applyReviverFields fs)
  | v => v

/-- Reviver on each element of an array. -/
def applyReviverList : List JsValue → List JsValue
  | [] => []
  | x :: xs => applyReviver x :: applyReviverList xs

/-- Reviver on each field of an object. -/
def applyReviverFields : List (String × JsValue) → List (String × JsValue)
  | [] => []
  | (k, v) :: fs => (k, applyReviver v) :: applyReviverFields fs

end

/-- Property access `data.key` on a decoded value: `none` models the JS
`undefined` (absent property or non-object receiver).  `JSON.parse`
keeps the last of duplicate keys, hence the reverse lookup. -/
def getField (v : JsValue) (key : String) : Option JsValue :=
  match v with
  | .obj fs => (fs.reverse.find? (fun p => p.1 == key)).map (fun p => p.2)
  | _ => none

/-- JS truthiness of a decoded value: false, 0, 0n, the empty string
and null are falsy; objects and arrays are always truthy.  For a
fraction/exponent literal the double value is ±0 exactly when every
digit of the lexeme is 0 (extreme-exponent underflow such as 1e-400
is outside the magnitudes this development evaluates). -/
def truthy : JsValue → Bool
  | .null => false
  | .bool b => b
  | .num n => n != 0
  | .bigint n => n != 0
  | .str s => s != ""
  | .numOther lex =>
    (lex.data.takeWhile (fun c => c ≠ 'e' ∧ c ≠ 'E')).any
      (fun c => c.isDigit && c != '0')
  | .arr _ => true
  | .obj _ => true

/-! ## MoneroRpcError -/

/-- The fields of `class MoneroRpcError extends Error`: the inherited
`message` plus the optional `code` and `errorMessage` set by the
constructor.  `code?: number` holds whatever number value the source
assigns with `this.code = response.code`, so it is kept as the stored
JS number: a `.num` for an integer-lexical double, a `.numOther` for
a fractional/exponent one. -/
structure MoneroRpcError where
  message : String
  code : Option JsValue := none
  errorMessage : Option String := none

/-- `'message' in response && typeof response.message === 'string'`:
the message field when it exists and is a string. -/
def messageStr (response : JsValue) : Option String :=
  match getField response "message" with
  | some (.str m) => some m
  | _ => none

/-- `'code' in response && typeof response.code === 'number'`: the
code field when it exists and is a number — any double passes the
typeof check, fractional ones included; a revived BigInt has typeof
bigint and does not. -/
def codeNum (response : JsValue) : Option JsValue :=
  match getField response "code" with
  | some (.num c) => some (.num c)
  | some (.numOther lexeme) => some (.numOther lexeme)
  | _ => none

/-- `response.code.toString()`: exact for the integer doubles this
development evaluates; for a fractional double (held as its source
lexeme) ECMAScript prints the shortest round-trip decimal, which is
not modelled — the lexeme stands in for it (the two coincide for a
canonically written literal such as 1.5).  No settled claim evaluates
a fractional code.  The catch-all is never reached: the function is
only applied to results of `codeNum`. -/
def jsNumberToString : JsValue → String
  | .num n => toString n
  | .numOther lexeme => lexeme
  | _ => ""

/-- The `MoneroRpcError` constructor.  The source checks, in order:
a string argument calls `super(response)`; an object argument with a
string `message` calls `super(response.message)` and records
`errorMessage`; an object with a numeric `code` records `code` and,
if no message was found, calls `super('Code ' + code.toString())`;
otherwise `super('Unknown error')`.  An array also has typeof
object in JS, but it carries neither field, so the catch-all yields
the same result for it. -/
def mkMoneroRpcError (response : JsValue) : MoneroRpcError :=
  match response with
  | .str s => { message := s }
  | .obj _ =>
    (match messageStr response, codeNum response with
     | some m, some c => { message := m, errorMessage := some m, code := some c }
     | some m, none => { message := m, errorMessage := some m }
     | none, some c =>
       { message := "Code " ++ jsNumberToString c, code := some c }
     | none, none => { message := "Unknown error" })
  | _ => { message := "Unknown error" }

/-! ## The request dispatcher (response side)

The `res.on('end')` handler of `request`:
  1. a missing status code or one outside 200..299 rejects with
     `new MoneroRpcError('RPC call failed with status code ' + statusCode)`
     before the body is looked at;
  2. otherwise `JSON.parse(stringifyInts(rawData), reviver)`;
  3. `if (data.error != null) return reject(new MoneroRpcError(data.error))`;
  4. `ok(data.result)` — the node assert, which throws on any falsy
     value — then `resolve(data.result)`. -/

/-- Outcome of the response handler.  `reject` settles the promise;
`assertionFailed` is the `ok()` AssertionError and `parseFailed` a
`JSON.parse` SyntaxError, both thrown synchronously inside the `end`
callback (the promise never settles). -/
inductive RpcOutcome where
  | resolve (result : JsValue)
  | reject (e : MoneroRpcError)
  | assertionFailed
  | parseFailed

/-- `statusCode == null || statusCode < 200 || statusCode > 299` -/
def statusBad : Option Nat → Bool
  | none => true
  | some n => decide (n < 200) || decide (299 < n)

/-- Template-string interpolation of `res.statusCode`, which prints
`undefined` when the status is absent. -/
def statusText : Option Nat → String
  | some n => toString n
  | none => "undefined"

/-- The rejection message for a non-2xx status. -/
def statusMsg (st : Option Nat) : String :=
  "RPC call failed with status code " ++ statusText st

/-- Step 4 of the handler: `ok(data.result); resolve(data.result)`. -/
def checkResult (data : JsValue) : RpcOutcome :=
  match getField data "result" with
  | some v => if truthy v then .resolve v else .assertionFailed
  | none => .assertionFailed

/-- Steps 3 and 4 of the handler, on the decoded value.  The loose
`!= null` comparison treats a literal `null` error field like an
absent one. -/
def handleDecoded (data : JsValue) : RpcOutcome :=
  match getField data "error" with
  | some .null => checkResult data
  | some e => .reject (mkMoneroRpcError e)
  | none => checkResult data

/-- The whole `end` handler: status gate, decode, dispatch. -/
def requestStep (statusCode : Option Nat) (rawData : String) : RpcOutcome :=
  if statusBad statusCode then
    .reject (mkMoneroRpcError (.str (statusMsg statusCode)))
  else
    match jsonParse (stringifyInts rawData) with
    | none => .parseFailed
    | some j => handleDecoded (applyReviver j)

/-! ## The request dispatcher (request side)

`const payload = JSON.stringify(\x7b jsonrpc: '2.0', id: '0', method, params \x7d)`.
`JSON.stringify` has no replacer here, so a bigint anywhere in the
value throws `TypeError: Do not know how to serialize a BigInt`.
Absent optional parameters are `undefined` in JS and are dropped by
`JSON.stringify`; a parameter bag is therefore modelled as the object
holding only the present parameters. -/

/-- Four-digit uppercase hex, for the \uXXXX escapes stringify emits
for control characters. -/
def hex4 (n : Nat) : String :=
  let d := fun k => String.singleton (Char.ofNat (if k < 10 then 48 + k else 55 + k))
  d (n / 4096 % 16) ++ d (n / 256 % 16) ++ d (n / 16 % 16) ++ d (n % 16)

/-- JSON string escaping as `JSON.stringify` performs it. -/
def escapeJsonChar (c : Char) : String :=
  if c = '"' then "\\\""
  else if c = '\\' then "\\\\"
  else if c = '\n' then "\\n"
  else if c = '\r' then "\\r"
  else if c = '\t' then "\\t"
  else if c = '\x08' then "\\b"
  else if c = '\x0c' then "\\f"
  else if c.toNat < 32 then "\\u" ++ hex4 c.toNat
  else String.singleton c

/-- Quote and escape a string literal. -/
def quoteJson (s : String) : String :=
  "\"" ++ String.join (s.data.map escapeJsonChar) ++ "\""

mutual

/-- `JSON.stringify` (no replacer, no spacing): errors on a bigint
exactly as JS throws its TypeError. -/
def jsonStringify : JsValue → Except String String
  | .null => .ok "null"
  | .bool true => .ok "true"
  | .bool false => .ok "false"
  | .num n => .ok (toString n)
  | .numOther lexeme => .ok lexeme
  | .bigint _ => .error "Do not know how to serialize a BigInt"
  | .str s => .ok (quoteJson s)
  | .arr xs =>
    (match jsonStringifyList xs with
     | .ok parts => .ok ("[" ++ String.intercalate "," parts ++ "]")
     | .error e => .error e)
  | .obj fs =>
    (match jsonStringifyFields fs with
     | .ok parts => .ok ("\x7b" ++ String.intercalate "," parts ++ "\x7d")
     | .error e => .error e)

/-- Stringify array elements in order. -/
def jsonStringifyList : List JsValue → Except String (List String)
  | [] => .ok []
  | x :: xs =>
    (match jsonStringify x with
     | .error e => .error e
     | .ok s =>
       match jsonStringifyList xs with
       | .error e => .error e
       | .ok rest => .ok (s :: rest))

/-- Stringify object members in insertion order. -/
def jsonStringifyFields : List (String × JsValue) → Except String (List String)
  | [] => .ok []
  | (k, v) :: fs =>
    (match jsonStringify v with
     | .error e => .error e
     | .ok s =>
       match jsonStringifyFields fs with
       | .error e => .error e
       | .ok rest => .ok ((quoteJson k ++ ":" ++ s) :: rest))

end

/-- The outgoing envelope object literal from `request`:
`\x7b jsonrpc: '2.0', id: '0', method, params \x7d`. -/
def buildPayload (method : String) (params : JsValue) : JsValue :=
  .obj [("jsonrpc", .str "2.0"), ("id", .str "0"),
        ("method", .str method), ("params", params)]

/-! ## Concrete response bodies from the specification -/

/-- The exact get_balance success body of the spec, in its compact
(separator-free) form as written there. -/
def balanceBodyCompact : String :=
  "\x7b\"jsonrpc\":\"2.0\",\"id\":\"0\",\"result\":\x7b\"balance\":1125125151521,\"unlocked_balance\":1125125151521,\"multisig_import_needed\":false,\"per_subaddress\":[\x7b\"balance\":1125125151521\x7d]\x7d\x7d"

/-- The same response in the indented `\"key\": value` form that
monero-wallet-rpc actually emits (one member per line, colon followed
by a space). -/
def balanceBodyIndented : String :=
  "\x7b\n  \"id\": \"0\",\n  \"jsonrpc\": \"2.0\",\n  \"result\": \x7b\n    \"balance\": 1125125151521,\n    \"multisig_import_needed\": false,\n    \"per_subaddress\": [\x7b\n      \"balance\": 1125125151521\n    \x7d],\n    \"unlocked_balance\": 1125125151521\n  \x7d\n\x7d"

/-- An indented body whose integer, 2^53 + 1, sits inside an array. -/
def amountsArrayBody : String :=
  "\x7b\n  \"id\": \"0\",\n  \"jsonrpc\": \"2.0\",\n  \"result\": \x7b\n    \"amounts\": [9007199254740993]\n  \x7d\n\x7d"

/-- The same integer as a plain object-field value, for contrast. -/
def heightObjectBody : String :=
  "\x7b\n  \"id\": \"0\",\n  \"jsonrpc\": \"2.0\",\n  \"result\": \x7b\n    \"height\": 9007199254740993\n  \x7d\n\x7d"

/-- A success body whose payment_id is the genuine string "123n". -/
def paymentIdBody : String :=
  "\x7b\"jsonrpc\":\"2.0\",\"id\":\"0\",\"result\":\x7b\"payment_id\":\"123n\"\x7d\x7d"

/-- The exact error body of the spec. -/
def deniedErrorBody : String :=
  "\x7b\"jsonrpc\":\"2.0\",\"id\":\"0\",\"error\":\x7b\"code\":-1,\"message\":\"denied\"\x7d\x7d"

/-- The prepass rewrites a spaced `"key": value` member but leaves a
compact `"key":value` member alone (the lookbehind demands a space),
and leaves string content untouched. -/
theorem stringifyInts_spacing_behavior :
    stringifyInts "  \"balance\": 123,\n  \"x\": \"abc\"" =
        "  \"balance\": \"123n\",\n  \"x\": \"abc\"" ∧
    stringifyInts "\x7b\"balance\":123\x7d" = "\x7b\"balance\":123\x7d" :=
  ⟨rfl, rfl⟩

/-- 2^53 + 1 is not representable as a binary64 float and rounds down
to 2^53; typical wallet balances are below 2^53 and survive exactly. -/
theorem roundNatToDouble_values :
    roundNatToDouble 9007199254740993 = 9007199254740992 ∧
    roundNatToDouble 1125125151521 = 1125125151521 :=
  ⟨by decide, by decide⟩

/-- The parser follows JSON.parse: values, arrays, objects, rejection
of leading zeros, double rounding of integer literals, lexeme capture
of fraction/exponent literals. -/
theorem jsonParse_behavior :
    jsonParse "\x7b\"a\": [1, true, \"x\"], \"b\": null\x7d" =
        some (.obj [("a", .arr [.num 1, .bool true, .str "x"]), ("b", .null)]) ∧
    jsonParse "9007199254740993" = some (.num 9007199254740992) ∧
    jsonParse "-1" = some (.num (-1)) ∧
    jsonParse "01" = none ∧
    jsonParse "2.5e3" = some (.numOther "2.5e3") :=
  ⟨rfl, rfl, rfl, rfl, rfl⟩

/-- The reviver test /(\d+)n/ is unanchored: it fires on an embedded
digit run followed by n, and not on digits without the marker. -/
theorem bigIntOfMarked_behavior :
    bigIntOfMarked "1125125151521n" = some 1125125151521 ∧
    bigIntOfMarked "abc123nfoo" = some 123 ∧
    bigIntOfMarked "2.0" = none ∧
    bigIntOfMarked "denied" = none :=
  ⟨rfl, rfl, rfl, rfl⟩

/-- A finite-precision numeric parameter serializes as a bare numeric
literal inside the envelope. -/
theorem jsonStringify_num_param :
    jsonStringify (buildPayload "get_balance" (.obj [("account_index", .num 0)])) =
      .ok "\x7b\"jsonrpc\":\"2.0\",\"id\":\"0\",\"method\":\"get_balance\",\"params\":\x7b\"account_index\":0\x7d\x7d" :=
  rfl

/-! ## Claim theorems -/

/-- C1: decoding an integer that appears as an element of an array
does NOT yield the exact arbitrary-precision integer: the rewriting
prepass only fires on the `"key": value` shape, so 9007199254740993
inside `"amounts": [...]` stays a bare literal, is parsed as a double
and collapses to 9007199254740992 — while the very same integer as a
plain object-field value is revived exactly.  This refutes the claim
for array contexts. -/
theorem c1_array_element_loses_precision :
    requestStep (some 200) amountsArrayBody =
      .resolve (.obj [("amounts", .arr [.num 9007199254740992])]) ∧
    (9007199254740992 : Int) ≠ 9007199254740993 ∧
    requestStep (some 200) heightObjectBody =
      .resolve (.obj [("height", .bigint 9007199254740993)]) :=
  ⟨rfl, by decide, rfl⟩

/-- C2: a genuine string field whose content is "123n" IS promoted to
the BigInt 123 by the reviver, whose /(\d+)n/ test cannot tell a
marker produced by the prepass from an original string.  This refutes
the claim that promotion never fires on a genuine string field. -/
theorem c2_genuine_string_is_promoted :
    requestStep (some 200) paymentIdBody =
      .resolve (.obj [("payment_id", .bigint 123)]) ∧
    JsValue.bigint 123 ≠ JsValue.str "123n" :=
  ⟨rfl, fun h => JsValue.noConfusion h⟩

/-- C3: on the exact compact body of the claim the rewriting prepass
never fires (it requires a space after the colon and an end-of-line
close behind the value), so both balance fields decode as plain
doubles, not BigInt — refuting the claim.  On the indented form that
monero-wallet-rpc actually emits, the same fields do decode as
BigInt. -/
theorem c3_compact_body_yields_numbers_not_bigints :
    requestStep (some 200) balanceBodyCompact =
      .resolve (.obj [("balance", .num 1125125151521),
                      ("unlocked_balance", .num 1125125151521),
                      ("multisig_import_needed", .bool false),
                      ("per_subaddress", .arr [.obj [("balance", .num 1125125151521)]])]) ∧
    JsValue.num 1125125151521 ≠ JsValue.bigint 1125125151521 ∧
    requestStep (some 200) balanceBodyIndented =
      .resolve (.obj [("balance", .bigint 1125125151521),
                      ("multisig_import_needed", .bool false),
                      ("per_subaddress", .arr [.obj [("balance", .bigint 1125125151521)]]),
                      ("unlocked_balance", .bigint 1125125151521)]) :=
  ⟨rfl, fun h => JsValue.noConfusion h, rfl⟩

/-- C4: any response whose status is absent or outside 200..299 is
rejected with a structured error whose message ends in the printed
status code, and the outcome does not depend on the body — the body is
never handed to the JSON decoder. -/
theorem c4_bad_status_rejects_without_parsing :
    ∀ (st : Option Nat) (raw raw' : String), statusBad st = true →
      requestStep st raw = .reject (mkMoneroRpcError (.str (statusMsg st))) ∧
      (mkMoneroRpcError (.str (statusMsg st))).message =
        "RPC call failed with status code " ++ statusText st ∧
      requestStep st raw = requestStep st raw' := by
  intro st raw raw' h
  refine ⟨?_, rfl, ?_⟩ <;> simp [requestStep, h]

/-- C4 witness: a status-500 response rejects with a message naming
500, identically for two different bodies. -/
theorem c4_status500_witness :
    requestStep (some 500) "\x7b\"result\": 1\x7d" =
      .reject (mkMoneroRpcError (.str (statusMsg (some 500)))) ∧
    (mkMoneroRpcError (.str (statusMsg (some 500)))).message =
      "RPC call failed with status code " ++ statusText (some 500) ∧
    requestStep (some 500) "\x7b\"result\": 1\x7d" = requestStep (some 500) "not json at all" :=
  c4_bad_status_rejects_without_parsing (some 500) "\x7b\"result\": 1\x7d" "not json at all"
    (by decide)

/-- C5: a decoded envelope carrying a non-null error field rejects
with the structured error built from it; on the spec's exact
status-200 denied body the rejection carries code -1 and message
"denied". -/
theorem c5_error_envelope_rejects :
    (∀ (data e : JsValue), getField data "error" = some e → e ≠ JsValue.null →
        handleDecoded data = .reject (mkMoneroRpcError e)) ∧
    requestStep (some 200) deniedErrorBody =
      .reject { message := "denied", code := some (.num (-1)),
                errorMessage := some "denied" } := by
  refine ⟨?_, rfl⟩
  intro data e h hne
  unfold handleDecoded
  rw [h]
  cases e <;> first | rfl | exact absurd rfl hne

/-- C5 witness: an envelope whose error field is the string "boom"
rejects with the error built from that value. -/
theorem c5_witness :
    handleDecoded (.obj [("error", .str "boom")]) =
      .reject (mkMoneroRpcError (.str "boom")) :=
  c5_error_envelope_rejects.1 (.obj [("error", .str "boom")]) (.str "boom") rfl
    (fun h => JsValue.noConfusion h)

/-- C6: an envelope with neither a result nor an error field makes the
internal `ok` assertion fire; the call never resolves. -/
theorem c6_missing_result_fails_loudly :
    ∀ data : JsValue, getField data "error" = none → getField data "result" = none →
      handleDecoded data = .assertionFailed ∧
      ∀ v, handleDecoded data ≠ .resolve v := by
  intro data h1 h2
  have hmain : handleDecoded data = .assertionFailed := by
    unfold handleDecoded
    rw [h1]
    unfold checkResult
    rw [h2]
  exact ⟨hmain, fun v h => RpcOutcome.noConfusion (hmain ▸ h)⟩

/-- C6 witness: the empty decoded object triggers the assertion. -/
theorem c6_witness :
    handleDecoded (.obj []) = .assertionFailed ∧
    ∀ v, handleDecoded (.obj []) ≠ .resolve v :=
  c6_missing_result_fails_loudly (.obj []) rfl rfl

/-- C8: a parameter bag carrying a bigint does not serialize at all —
`JSON.stringify` throws its BigInt TypeError before anything is sent,
for any bigint value and any further parameters, instead of producing
a bare numeric literal. -/
theorem c8_bigint_param_throws :
    ∀ (n : Int) (more : List (String × JsValue)),
      jsonStringify (buildPayload "get_balance"
          (.obj (("account_index", .bigint n) :: more))) =
        .error "Do not know how to serialize a BigInt" :=
  fun _ _ => rfl

/-- C9: the outgoing envelope has exactly the four fields
jsonrpc = "2.0", id = "0", method and params, and the correlation
token is the same constant on every call. -/
theorem c9_envelope_shape :
    ∀ (method : String) (params : JsValue),
      getField (buildPayload method params) "jsonrpc" = some (.str "2.0") ∧
      getField (buildPayload method params) "id" = some (.str "0") ∧
      getField (buildPayload method params) "method" = some (.str method) ∧
      getField (buildPayload method params) "params" = some params ∧
      ∀ (m2 : String) (p2 : JsValue),
        getField (buildPayload method params) "id" = getField (buildPayload m2 p2) "id" :=
  fun _ _ => ⟨rfl, rfl, rfl, rfl, fun _ _ => rfl⟩

/-- C10: a present but falsy result (false, 0, 0n, the empty string or
null) trips the `ok` assertion exactly as an absent result does; the
call never resolves with such a value. -/
theorem c10_falsy_result_asserts :
    (∀ (data v : JsValue), getField data "error" = none →
        getField data "result" = some v → truthy v = false →
        handleDecoded data = .assertionFailed) ∧
    truthy (.bool false) = false ∧ truthy (.num 0) = false ∧
    truthy (.str "") = false ∧ truthy .null = false ∧ truthy (.bigint 0) = false := by
  refine ⟨?_, rfl, by decide, by decide, rfl, by decide⟩
  intro data v h1 h2 h3
  have hd : handleDecoded data = checkResult data := by
    unfold handleDecoded
    rw [h1]
  have hc : checkResult data =
      if truthy v = true then RpcOutcome.resolve v else RpcOutcome.assertionFailed := by
    unfold checkResult
    rw [h2]
  rw [hd, hc, h3]
  rfl

/-- C10 witness: a boolean-false result is not resolved; the
assertion fires. -/
theorem c10_witness :
    handleDecoded (.obj [("result", .bool false)]) = .assertionFailed :=
  c10_falsy_result_asserts.1 (.obj [("result", .bool false)]) (.bool false) rfl rfl rfl

